import Mathlib

/-!
Shallow embedding of the scheduled-notification delivery engine of the
vault-server repository (Firebase Cloud Functions in
`functions/src/index.ts`, `functions/src/emailScheduler.ts`,
`functions/src/smsScheduler.ts`, `functions/src/pushNotificationScheduler.ts`,
and the channel services in `src/services`).

Conventions of the embedding:
* Timestamps are integers counting minutes (the retry backoff in the source
  adds minutes via `Date.setMinutes`, and the retention cutoff subtracts
  30 days, i.e. 43200 minutes).
* Firestore documents become `NotificationRecord` values; a channel
  collection becomes a `List` of records, with `id` playing the role of the
  store-assigned document id.
* The three channel schedulers are byte-for-byte identical in the source
  except for the contact field and its presence check, so the shared body is
  defined once and instantiated three times with the channel contact check.
* Network sends are potentially failing I/O; their outcomes enter the model
  as explicit boolean (transport succeeded or not) or per-record oracle
  arguments, and the per-channel send wrappers reproduce how the source
  turns transport outcomes into a thrown error or a normal return.
-/

namespace VaultNotifications

/-- Lifecycle states of a notification record (`status` field values used in
the source: `'scheduled' | 'processing' | 'sent' | 'failed' | 'cancelled'`). -/
inductive Status where
  | scheduled
  | processing
  | sent
  | failed
  | cancelled
deriving DecidableEq, Repr

/-- One document of a channel collection
(`scheduledEmailNotifications` / `scheduledSMSNotifications` /
`scheduledPushNotifications`).  The collections are structurally identical
except for the contact field, so the record is generic in the contact type
`γ` (`String` for email and SMS, `List String` for push device tokens). -/
structure NotificationRecord (γ : Type) where
  id : Nat
  userId : String
  itemId : String
  itemName : String
  category : String
  notificationType : String
  scheduledDate : Int
  userContact : γ
  reminderDaysBefore : Nat
  status : Status
  attempts : Nat
  maxAttempts : Nat
  lastError : Option String
  createdAt : Option Int
  processedAt : Option Int
  sentAt : Option Int
  failedAt : Option Int
  cancelledAt : Option Int
  lastAttempt : Option Int
deriving DecidableEq, Repr

/-- Data accepted by the per-channel `scheduleXNotification` functions
(`EmailNotificationData` / `SMSNotificationData` / `PushNotificationData`).
`reminderDaysBefore = 0` models the JS-falsy absent value, which the source
replaces by 7 via `data.reminderDaysBefore || 7`. -/
structure NotificationData (γ : Type) where
  userId : String
  itemId : String
  itemName : String
  category : String
  notificationType : String
  scheduledDate : Int
  userContact : γ
  reminderDaysBefore : Nat
deriving DecidableEq, Repr

/-- Shared body of the three `validateNotificationData` functions.  The
channel-specific last check is supplied as `contactError`, returning the
channel error message when the contact is missing. -/
def validateNotificationData (contactError : γ → Option String) (now : Int)
    (d : NotificationData γ) : Except String Unit :=
  if d.userId = "" then .error "userId is required"
  else if d.itemId = "" then .error "itemId is required"
  else if d.itemName = "" then .error "itemName is required"
  else if d.scheduledDate ≤ now then .error "scheduledDate must be in the future"
  else match contactError d.userContact with
    | some e => .error e
    | none => .ok ()

/-- Shared body of the three `scheduleXNotification` functions: validate,
then persist one document with `status: 'scheduled'`, `attempts: 0`,
`maxAttempts: 3` and the server creation timestamp.  `newId` is the
store-assigned document id. -/
def scheduleNotificationRecord (contactError : γ → Option String) (now : Int)
    (newId : Nat) (d : NotificationData γ) : Except String (NotificationRecord γ) :=
  match validateNotificationData contactError now d with
  | .error e => .error e
  | .ok _ => .ok {
      id := newId
      userId := d.userId
      itemId := d.itemId
      itemName := d.itemName
      category := d.category
      notificationType := d.notificationType
      scheduledDate := d.scheduledDate
      userContact := d.userContact
      reminderDaysBefore := if d.reminderDaysBefore = 0 then 7 else d.reminderDaysBefore
      status := .scheduled
      attempts := 0
      maxAttempts := 3
      lastError := none
      createdAt := some now
      processedAt := none
      sentAt := none
      failedAt := none
      cancelledAt := none
      lastAttempt := none }

/-- Contact check of `emailScheduler.ts`: `if (!data.userContact.email)`. -/
def emailContactError (email : String) : Option String :=
  if email = "" then some "Email is required" else none

/-- Contact check of `smsScheduler.ts`: `if (!data.userContact.phone)`. -/
def phoneContactError (phone : String) : Option String :=
  if phone = "" then some "Phone number is required" else none

/-- Contact check of `pushNotificationScheduler.ts`:
`if (!data.userContact.fcmTokens || data.userContact.fcmTokens.length === 0)`. -/
def fcmContactError (tokens : List String) : Option String :=
  if tokens.isEmpty then some "At least one FCM token is required" else none

/-- The `scheduleEmailNotification` write path of `emailScheduler.ts`. -/
def scheduleEmailNotification (now : Int) (newId : Nat)
    (d : NotificationData String) : Except String (NotificationRecord String) :=
  scheduleNotificationRecord emailContactError now newId d

/-- The `scheduleSMSNotification` write path of `smsScheduler.ts`. -/
def scheduleSMSNotification (now : Int) (newId : Nat)
    (d : NotificationData String) : Except String (NotificationRecord String) :=
  scheduleNotificationRecord phoneContactError now newId d

/-- The `schedulePushNotification` write path of
`pushNotificationScheduler.ts`. -/
def schedulePushNotification (now : Int) (newId : Nat)
    (d : NotificationData (List String)) : Except String (NotificationRecord (List String)) :=
  scheduleNotificationRecord fcmContactError now newId d

/-! ### Dispatcher -/

/-- `notification.maxAttempts || 3` of the dispatcher failure branch. -/
def maxAttemptsOf (r : NotificationRecord γ) : Nat :=
  if r.maxAttempts = 0 then 3 else r.maxAttempts

/-- Outcome of one claimed record after the dispatcher invoked its sender:
success marks it `sent`; a thrown send error increments the attempt count
and either marks the record permanently `failed` (count reached the limit)
or requeues it as `scheduled` with the exponential backoff
`retryDate.setMinutes(getMinutes() + Math.pow(2, attempts) * 5)`.
`claimed` is the document after the claim batch (already `processing` with
`processedAt` stamped); the attempt arithmetic reads the snapshot fields,
which the claim batch did not touch. -/
def processOne (now : Int) (claimed : NotificationRecord γ) :
    Except String Unit → NotificationRecord γ
  | .ok _ =>
      { claimed with
        status := .sent
        sentAt := some now
        lastAttempt := some now }
  | .error msg =>
      let attempts := claimed.attempts + 1
      if maxAttemptsOf claimed ≤ attempts then
        { claimed with
          status := .failed
          attempts := attempts
          lastError := some msg
          failedAt := some now
          lastAttempt := some now }
      else
        { claimed with
          status := .scheduled
          attempts := attempts
          lastError := some msg
          scheduledDate := now + 2 ^ attempts * 5
          lastAttempt := some now }

/-- The due-work predicate of the dispatcher query:
`where('status','==','scheduled').where('scheduledDate','<=',now)`. -/
def duePredB (now : Int) (r : NotificationRecord γ) : Bool :=
  r.status = Status.scheduled ∧ r.scheduledDate ≤ now

/-- The batch claimed by one dispatcher pass: the due records, limited to
100 (`.limit(100)`). -/
def claimBatch (now : Int) (coll : List (NotificationRecord γ)) :
    List (NotificationRecord γ) :=
  (coll.filter (duePredB now)).take 100

/-- One dispatcher pass (`processScheduledXNotifications`): claim the due
batch as `processing` with `processedAt` stamped, then process every claimed
record.  `out` gives, per document id, the outcome of the channel send for
this pass (ok, or the thrown error message). -/
def dispatcherPass (now : Int) (out : Nat → Except String Unit)
    (coll : List (NotificationRecord γ)) : List (NotificationRecord γ) :=
  coll.map (fun r =>
    if r.id ∈ (claimBatch now coll).map (fun b => b.id) then
      processOne now { r with status := .processing, processedAt := some now } (out r.id)
    else r)

/-- Lookup of a document by id. -/
def findById (coll : List (NotificationRecord γ)) (i : Nat) :
    Option (NotificationRecord γ) :=
  coll.find? (fun r => r.id = i)

/-- Store well-formedness: document ids are unique (Firestore assigns
distinct ids). -/
abbrev WF (coll : List (NotificationRecord γ)) : Prop :=
  (coll.map (fun r => r.id)).Nodup

/-! ### Channel senders

The outcomes of the three per-record send helpers.  `transport` arguments
stand for the outcome of the underlying network call (true when the message
left the transport successfully). -/

/-- `EmailService.sendEmail` (`src/services/emailService.ts`) catches every
transport error and resolves with a boolean.  All category branches of
`sendEmailNotification` funnel into it, so the service result is exactly the
transport outcome. -/
def EmailService.sendEmail (transport : Bool) : Bool := transport

/-- The E.164 check of `SMSService.isValidPhoneNumber`
(`src/services/smsService.ts`): the regex `^\+[1-9]\d\x7b1,14\x7d$`, i.e. a
plus sign, one digit 1-9, then one to fourteen further digits. -/
def isValidPhoneNumber (s : String) : Bool :=
  match s.data with
  | '+' :: c :: rest =>
      ('1' ≤ c && c ≤ '9') &&
      rest.all (fun d => '0' ≤ d && d ≤ '9') &&
      (1 ≤ rest.length && rest.length ≤ 14)
  | _ => false

/-- `SMSService.sendSMS`: rejects a non-E.164 destination by resolving
false before any transport call; otherwise resolves with the transport
outcome (it catches every Twilio error and resolves false).  All category
branches of `sendSMSNotification` funnel into it. -/
def SMSService.sendSMS (phone : String) (transport : Bool) : Bool :=
  if isValidPhoneNumber phone then transport else false

/-- The per-record email send of the dispatcher
(`sendEmailNotification` in `emailScheduler.ts`): a record with no email
address returns normally without any attempt; otherwise the service boolean
decides between a normal return and a thrown error (the service never
rejects, so the `.catch` rethrow path is unreachable). -/
def sendEmailNotification (email itemName : String) (transport : Bool) :
    Except String Unit :=
  if email = "" then .ok ()
  else if EmailService.sendEmail transport then .ok ()
  else .error ("Email failed for " ++ itemName ++ ": No response from email service")

/-- The per-record SMS send of the dispatcher
(`sendSMSNotification` in `smsScheduler.ts`), same shape as the email one. -/
def sendSMSNotification (phone itemName : String) (transport : Bool) :
    Except String Unit :=
  if phone = "" then .ok ()
  else if SMSService.sendSMS phone transport then .ok ()
  else .error ("SMS failed for " ++ itemName ++ ": No response from SMS service")

/-- Outcome of one settled promise (`Promise.allSettled` entry). -/
inductive SettledBool where
  | fulfilled (value : Bool)
  | rejected (reason : String)
deriving DecidableEq, Repr

/-- `PushNotificationService.sendPushNotification`
(`src/services/pushNotificationService.ts`) catches every transport error
and resolves with a boolean, so the per-token promise always fulfils with
the transport outcome and never rejects.  All category branches of the
scheduler funnel into it. -/
def PushNotificationService.send (transport : Bool) : SettledBool :=
  .fulfilled transport

/-- The `.catch` wrapper around each per-token promise in
`sendPushNotification`: it rewrites a rejection reason and passes a
fulfilment through. -/
def rethrowPush (s : SettledBool) : SettledBool :=
  match s with
  | .fulfilled v => .fulfilled v
  | .rejected m => .rejected ("Push: " ++ m)

/-- True for a fulfilled settled result (`result.status === 'fulfilled'`). -/
def SettledBool.isFulfilled : SettledBool → Bool
  | .fulfilled _ => true
  | .rejected _ => false

/-- The rejection reason of a settled result, when rejected. -/
def SettledBool.reason : SettledBool → Option String
  | .fulfilled _ => none
  | .rejected m => some m

/-- The per-record push send of the dispatcher (`sendPushNotification` in
`pushNotificationScheduler.ts`): an empty or missing token list returns
normally with no attempt; otherwise one promise per token is settled
(`transport` pairs each token with its transport outcome), `hasSuccess`
checks whether some promise fulfilled, the rejection reasons are collected,
and an error is thrown only when nothing fulfilled and some reason exists. -/
def sendPushNotification (fcmTokens : List String) (_itemName : String)
    (transport : List Bool) : Except String Unit :=
  if fcmTokens.isEmpty then .ok ()
  else
    let results := (fcmTokens.zip transport).map
      (fun p => rethrowPush (PushNotificationService.send p.2))
    let hasSuccess := results.any (fun r => r.isFulfilled)
    let errors := results.filterMap (fun r => r.reason)
    if !hasSuccess && !errors.isEmpty then
      .error ("All push notifications failed: " ++ String.intercalate ", " errors)
    else .ok ()

/-! ### Cancellation Service -/

/-- The match predicate of the cancellation query
(`where('itemId','==',itemId).where('status','==','scheduled')`, plus the
optional `where('userId','==',userId)`). -/
def cancelMatchB (itemId : String) (userId : Option String)
    (r : NotificationRecord γ) : Bool :=
  decide (r.itemId = itemId) && decide (r.status = Status.scheduled) &&
    (match userId with | some u => decide (r.userId = u) | none => true)

/-- The batch update applied to one record by a cancellation call: a match
is set to `cancelled` with `cancelledAt` stamped, anything else is left
untouched. -/
def cancelStep (now : Int) (itemId : String) (userId : Option String)
    (r : NotificationRecord γ) : NotificationRecord γ :=
  if cancelMatchB itemId userId r then
    { r with status := .cancelled, cancelledAt := some now }
  else r

/-- One `cancelXNotifications` call on a channel collection: every match is
batch-updated to `cancelled` with `cancelledAt` stamped, every other record
is untouched, and the match count is returned (the three channel variants
are identical). -/
def cancelChannelNotifications (now : Int) (itemId : String)
    (userId : Option String) (coll : List (NotificationRecord γ)) :
    List (NotificationRecord γ) × Nat :=
  ( coll.map (cancelStep now itemId userId),
    (coll.filter (cancelMatchB itemId userId)).length )

/-! ### Retention Sweeper -/

/-- The cutoff of `cleanupOldNotifications`: `now` minus 30 days
(in minutes). -/
def retentionCutoff (now : Int) : Int := now - 30 * 24 * 60

/-- The deletion query predicate:
`where('status','in',['sent','failed']).where('processedAt','<',cutoff)`.
A document with no `processedAt` field is not matched by the range filter. -/
def oldTerminalB (cutoff : Int) (r : NotificationRecord γ) : Bool :=
  (r.status = Status.sent ∨ r.status = Status.failed) &&
    (match r.processedAt with
     | some t => decide (t < cutoff)
     | none => false)

/-- One sweeper pass over one channel collection
(`cleanupOldNotifications` body for a single collection): a single query
limited to 500 matches, one batch delete of those matches, and the deleted
count.  The source has no loop: at most one batch per collection per run. -/
def cleanupCollection (now : Int) (coll : List (NotificationRecord γ)) :
    List (NotificationRecord γ) × Nat :=
  let snapshotDocs := (coll.filter (oldTerminalB (retentionCutoff now))).take 500
  let ids := snapshotDocs.map (fun r => r.id)
  (coll.filter (fun r => !ids.contains r.id), snapshotDocs.length)

/-! ### Fan-out Orchestrator (`scheduleItemNotification` in
`functions/src/index.ts`) -/

/-- Error thrown to the callable caller (`HttpsError(code, message)`). -/
structure HttpsErr where
  code : String
  message : String
deriving DecidableEq, Repr

/-- The channel preference flags of the request
(`userPreferences: \x7b email, sms, push \x7d`). -/
structure ChannelPreferences where
  email : Bool
  sms : Bool
  push : Bool
deriving DecidableEq, Repr

/-- The contact block of the request
(`userContact: \x7b fcmTokens, email, phone \x7d`); an empty string or empty
list models a JS-falsy missing contact. -/
structure ContactDetails where
  fcmTokens : List String
  email : String
  phone : String
deriving DecidableEq, Repr

/-- The callable request data of `scheduleItemNotification`.  `none` for
`scheduledDate` and the option blocks models a missing field; an empty
string models a JS-falsy string field; `reminderDaysBefore = 0` models a
falsy day count (replaced by 7). -/
structure FanoutRequest where
  userId : String
  itemId : String
  itemName : String
  category : String
  notificationType : String
  scheduledDate : Option Int
  userPreferences : Option ChannelPreferences
  userContact : Option ContactDetails
  reminderDaysBefore : Nat
deriving DecidableEq, Repr

/-- The `scheduledIds` map of the success response, holding the new record
id per channel that was scheduled. -/
structure ScheduledIds where
  push : Option Nat
  email : Option Nat
  sms : Option Nat
deriving DecidableEq, Repr

/-- Result of one `scheduleItemNotification` call: the response to the
caller together with the records the call persisted in each channel
collection (its durable side effects, which survive even when the response
is an error). -/
structure FanoutResult where
  response : Except HttpsErr ScheduledIds
  pushRecord : Option (NotificationRecord (List String))
  emailRecord : Option (NotificationRecord String)
  smsRecord : Option (NotificationRecord String)
deriving Repr

/-- True when an attempted channel schedule call rejected. -/
def channelErrored : Option (Except String α) → Bool
  | some (.error _) => true
  | _ => false

/-- `userPreferences || \x7b email: true, sms: false, push: false \x7d`. -/
def effectivePreferences (req : FanoutRequest) : ChannelPreferences :=
  req.userPreferences.getD { email := true, sms := false, push := false }

/-- `userContact || \x7b\x7d` (every contact field falsy). -/
def effectiveContact (req : FanoutRequest) : ContactDetails :=
  req.userContact.getD { fcmTokens := [], email := "", phone := "" }

/-- The guard of the push if-block:
`preferences.push && contact.fcmTokens && contact.fcmTokens.length > 0`. -/
def eligPush (req : FanoutRequest) : Prop :=
  (effectivePreferences req).push = true ∧ (effectiveContact req).fcmTokens ≠ []

/-- The guard of the email if-block: `preferences.email && contact.email`. -/
def eligEmail (req : FanoutRequest) : Prop :=
  (effectivePreferences req).email = true ∧ (effectiveContact req).email ≠ ""

/-- The guard of the SMS if-block: `preferences.sms && contact.phone`. -/
def eligSms (req : FanoutRequest) : Prop :=
  (effectivePreferences req).sms = true ∧ (effectiveContact req).phone ≠ ""

instance (req : FanoutRequest) : Decidable (eligPush req) := by
  unfold eligPush
  infer_instance

instance (req : FanoutRequest) : Decidable (eligEmail req) := by
  unfold eligEmail
  infer_instance

instance (req : FanoutRequest) : Decidable (eligSms req) := by
  unfold eligSms
  infer_instance

/-- The channel scheduling data the fan-out builds for one channel:
`category || 'general'`, `notificationType || 'reminder'`,
`reminderDaysBefore || 7`, the shared base fields and the channel contact. -/
def fanoutChannelData (req : FanoutRequest) (contact : γ) :
    NotificationData γ :=
  { userId := req.userId
    itemId := req.itemId
    itemName := req.itemName
    category := if req.category = "" then "general" else req.category
    notificationType :=
      if req.notificationType = "" then "reminder" else req.notificationType
    scheduledDate := req.scheduledDate.getD 0
    userContact := contact
    reminderDaysBefore :=
      if req.reminderDaysBefore = 0 then 7 else req.reminderDaysBefore }

/-- The push if-block of `scheduleItemNotification`: invoke the push
Scheduler exactly when the push preference is set and tokens exist. -/
def fanoutPushRes (now : Int) (pushId : Nat) (req : FanoutRequest) :
    Option (Except String (NotificationRecord (List String))) :=
  if eligPush req then
    some (schedulePushNotification now pushId
      (fanoutChannelData req (effectiveContact req).fcmTokens))
  else none

/-- The email if-block of `scheduleItemNotification`. -/
def fanoutEmailRes (now : Int) (emailId : Nat) (req : FanoutRequest) :
    Option (Except String (NotificationRecord String)) :=
  if eligEmail req then
    some (scheduleEmailNotification now emailId
      (fanoutChannelData req (effectiveContact req).email))
  else none

/-- The SMS if-block of `scheduleItemNotification`. -/
def fanoutSmsRes (now : Int) (smsId : Nat) (req : FanoutRequest) :
    Option (Except String (NotificationRecord String)) :=
  if eligSms req then
    some (scheduleSMSNotification now smsId
      (fanoutChannelData req (effectiveContact req).phone))
  else none

/-- The `scheduleItemNotification` callable: validate the base fields and
the future due instant, default the preferences to
`\x7b email: true, sms: false, push: false \x7d` and the contact block to
empty, invoke each channel scheduler exactly when its preference flag is set
and its contact is non-empty, fail with `invalid-argument` when no channel
was eligible, and report `internal` when some invoked scheduler rejected
(records already persisted by other channels are not rolled back).
`pushId`, `emailId`, `smsId` are the ids the store would assign. -/
def scheduleItemNotification (now : Int) (pushId emailId smsId : Nat)
    (req : FanoutRequest) : FanoutResult :=
  if req.userId = "" ∨ req.itemId = "" ∨ req.itemName = "" ∨ req.scheduledDate.isNone then
    { response := .error
        { code := "invalid-argument"
          message := "Missing required parameters: userId, itemId, itemName, scheduledDate" }
      pushRecord := none
      emailRecord := none
      smsRecord := none }
  else if req.scheduledDate.getD 0 ≤ now then
    { response := .error
        { code := "invalid-argument", message := "Scheduled date must be in the future" }
      pushRecord := none
      emailRecord := none
      smsRecord := none }
  else if (fanoutPushRes now pushId req).isNone ∧
      (fanoutEmailRes now emailId req).isNone ∧
      (fanoutSmsRes now smsId req).isNone then
    { response := .error
        { code := "invalid-argument"
          message := "No valid notification preferences or contact details provided" }
      pushRecord := none
      emailRecord := none
      smsRecord := none }
  else if channelErrored (fanoutPushRes now pushId req) ∨
      channelErrored (fanoutEmailRes now emailId req) ∨
      channelErrored (fanoutSmsRes now smsId req) then
    { response := .error
        { code := "internal", message := "Failed to schedule notification" }
      pushRecord := (fanoutPushRes now pushId req).bind Except.toOption
      emailRecord := (fanoutEmailRes now emailId req).bind Except.toOption
      smsRecord := (fanoutSmsRes now smsId req).bind Except.toOption }
  else
    { response := .ok
        { push := ((fanoutPushRes now pushId req).bind Except.toOption).map
            (fun r => r.id)
          email := ((fanoutEmailRes now emailId req).bind Except.toOption).map
            (fun r => r.id)
          sms := ((fanoutSmsRes now smsId req).bind Except.toOption).map
            (fun r => r.id) }
      pushRecord := (fanoutPushRes now pushId req).bind Except.toOption
      emailRecord := (fanoutEmailRes now emailId req).bind Except.toOption
      smsRecord := (fanoutSmsRes now smsId req).bind Except.toOption }

/-! ### Operation sequences over one channel collection

The live engine mutates a channel collection through three entry points:
the channel Scheduler, the Dispatcher pass, and the Cancellation Service
(the Retention Sweeper only deletes terminal records and is modelled
separately by `cleanupCollection`).  `ChannelOp` is one such invocation;
`runOps` plays a sequence against a collection.  The store assigns each new
document a fresh id (one larger than the largest id in use). -/

inductive ChannelOp (γ : Type) where
  | schedule (now : Int) (d : NotificationData γ)
  | dispatch (now : Int) (out : Nat → Except String Unit)
  | cancel (now : Int) (itemId : String) (userId : Option String)

/-- A fresh store-assigned document id: larger than every id in use. -/
def freshId (coll : List (NotificationRecord γ)) : Nat :=
  (coll.map (fun r => r.id)).foldr max 0 + 1

/-- Apply one engine operation to a channel collection.  `contactError` is
the channel contact check of the Scheduler (a failed validation persists
nothing). -/
def applyOp (contactError : γ → Option String)
    (coll : List (NotificationRecord γ)) :
    ChannelOp γ → List (NotificationRecord γ)
  | .schedule now d =>
      match scheduleNotificationRecord contactError now (freshId coll) d with
      | .ok r => coll ++ [r]
      | .error _ => coll
  | .dispatch now out => dispatcherPass now out coll
  | .cancel now itemId userId => (cancelChannelNotifications now itemId userId coll).1

/-- Play a sequence of engine operations against a channel collection. -/
def runOps (contactError : γ → Option String)
    (coll : List (NotificationRecord γ)) :
    List (ChannelOp γ) → List (NotificationRecord γ)
  | [] => coll
  | op :: rest => runOps contactError (applyOp contactError coll op) rest

/-! ### Helper lemmas -/

theorem processOne_id (now : Int) (c : NotificationRecord γ)
    (o : Except String Unit) : (processOne now c o).id = c.id := by
  cases o with
  | ok v => rfl
  | error msg =>
    simp only [processOne]
    split <;> rfl

theorem mem_unique_of_WF {coll : List (NotificationRecord γ)} (hwf : WF coll)
    {a b : NotificationRecord γ} (ha : a ∈ coll) (hb : b ∈ coll)
    (h : a.id = b.id) : a = b := by
  induction coll with
  | nil => cases ha
  | cons x xs ih =>
    have hx : x.id ∉ xs.map (fun s => s.id) := by
      have h1 := hwf
      simp only [WF, List.map_cons, List.nodup_cons] at h1
      exact h1.1
    have hwf' : WF xs := by
      have h1 := hwf
      simp only [WF, List.map_cons, List.nodup_cons] at h1
      exact h1.2
    rcases List.mem_cons.mp ha with rfl | ha'
    · rcases List.mem_cons.mp hb with rfl | hb'
      · rfl
      · exact absurd (h ▸ List.mem_map_of_mem (fun s => s.id) hb') hx
    · rcases List.mem_cons.mp hb with rfl | hb'
      · exact absurd (h ▸ List.mem_map_of_mem (fun s => s.id) ha') hx
      · exact ih hwf' ha' hb'

theorem findById_eq_some_of_mem {coll : List (NotificationRecord γ)}
    (hwf : WF coll) {r : NotificationRecord γ} (hr : r ∈ coll) :
    findById coll r.id = some r := by
  induction coll with
  | nil => cases hr
  | cons x xs ih =>
    have hx : x.id ∉ xs.map (fun s => s.id) := by
      have h1 := hwf
      simp only [WF, List.map_cons, List.nodup_cons] at h1
      exact h1.1
    have hwf' : WF xs := by
      have h1 := hwf
      simp only [WF, List.map_cons, List.nodup_cons] at h1
      exact h1.2
    rcases List.mem_cons.mp hr with rfl | hr'
    · simp [findById]
    · have hne : x.id ≠ r.id := by
        intro he
        exact hx (he ▸ List.mem_map_of_mem (fun s => s.id) hr')
      simpa [findById, List.find?_cons, hne] using ih hwf' hr'

theorem mem_claimBatch {coll : List (NotificationRecord γ)} {now : Int}
    {r : NotificationRecord γ} (h : r ∈ claimBatch now coll) :
    r ∈ coll ∧ r.status = Status.scheduled ∧ r.scheduledDate ≤ now := by
  have h1 := List.mem_of_mem_take h
  have h2 := List.mem_filter.mp h1
  refine ⟨h2.1, ?_⟩
  simpa [duePredB] using h2.2

theorem findById_map_of_id_preserved
    {f : NotificationRecord γ → NotificationRecord γ}
    (hf : ∀ r, (f r).id = r.id) (coll : List (NotificationRecord γ)) (i : Nat) :
    findById (coll.map f) i = (findById coll i).map f := by
  simp only [findById, List.find?_map]
  have hp : ((fun r : NotificationRecord γ => decide (r.id = i)) ∘ f) =
      (fun r : NotificationRecord γ => decide (r.id = i)) := by
    funext s
    rw [Function.comp_apply, hf]
  rw [hp]

/-- The per-record transform applied by one dispatcher pass. -/
def dispatchStep (now : Int) (out : Nat → Except String Unit)
    (coll : List (NotificationRecord γ)) (r : NotificationRecord γ) :
    NotificationRecord γ :=
  if r.id ∈ (claimBatch now coll).map (fun b => b.id) then
    processOne now { r with status := .processing, processedAt := some now } (out r.id)
  else r

theorem dispatcherPass_eq_map (now : Int) (out : Nat → Except String Unit)
    (coll : List (NotificationRecord γ)) :
    dispatcherPass now out coll = coll.map (dispatchStep now out coll) := rfl

theorem dispatchStep_id (now : Int) (out : Nat → Except String Unit)
    (coll : List (NotificationRecord γ)) (r : NotificationRecord γ) :
    (dispatchStep now out coll r).id = r.id := by
  unfold dispatchStep
  split
  · rw [processOne_id]
  · rfl

theorem dispatcherPass_findById_claimed {coll : List (NotificationRecord γ)}
    {now : Int} (hwf : WF coll) {r : NotificationRecord γ}
    (hr : r ∈ claimBatch now coll) (out : Nat → Except String Unit) :
    findById (dispatcherPass now out coll) r.id =
      some (processOne now
        { r with status := .processing, processedAt := some now } (out r.id)) := by
  have hmemc : r ∈ coll := (mem_claimBatch hr).1
  have hidmem : r.id ∈ (claimBatch now coll).map (fun b => b.id) :=
    List.mem_map_of_mem (fun b => b.id) hr
  rw [dispatcherPass_eq_map,
    findById_map_of_id_preserved (dispatchStep_id now out coll) coll r.id,
    findById_eq_some_of_mem hwf hmemc, Option.map_some', dispatchStep, if_pos hidmem]

theorem dispatcherPass_findById_unclaimed {coll : List (NotificationRecord γ)}
    {now : Int} (hwf : WF coll) {r : NotificationRecord γ} (hr : r ∈ coll)
    (hst : r.status ≠ Status.scheduled) (out : Nat → Except String Unit) :
    findById (dispatcherPass now out coll) r.id = some r := by
  have hidnot : r.id ∉ (claimBatch now coll).map (fun b => b.id) := by
    intro hid
    rcases List.mem_map.mp hid with ⟨b, hb, hbid⟩
    have hbc := mem_claimBatch hb
    have hbr : b = r := mem_unique_of_WF hwf hbc.1 hr hbid
    exact hst (hbr ▸ hbc.2.1)
  rw [dispatcherPass_eq_map,
    findById_map_of_id_preserved (dispatchStep_id now out coll) coll r.id,
    findById_eq_some_of_mem hwf hr, Option.map_some', dispatchStep, if_neg hidnot]

theorem WF_map_of_id_preserved {coll : List (NotificationRecord γ)}
    (hwf : WF coll) {f : NotificationRecord γ → NotificationRecord γ}
    (hf : ∀ r, (f r).id = r.id) : WF (coll.map f) := by
  have hm : (coll.map f).map (fun r => r.id) = coll.map (fun r => r.id) := by
    rw [List.map_map]
    exact List.map_congr_left (fun r _ => hf r)
  simpa [WF, hm] using hwf

theorem WF_dispatcherPass {coll : List (NotificationRecord γ)} (hwf : WF coll)
    (now : Int) (out : Nat → Except String Unit) :
    WF (dispatcherPass now out coll) := by
  rw [dispatcherPass_eq_map]
  exact WF_map_of_id_preserved hwf (dispatchStep_id now out coll)

theorem dispatchStep_eq_self_of_not_scheduled {coll : List (NotificationRecord γ)}
    (hwf : WF coll) {s : NotificationRecord γ} (hs : s ∈ coll)
    (hst : s.status ≠ Status.scheduled) (now : Int)
    (out : Nat → Except String Unit) :
    dispatchStep now out coll s = s := by
  unfold dispatchStep
  rw [if_neg]
  intro hid
  rcases List.mem_map.mp hid with ⟨b, hb, hbid⟩
  have hbc := mem_claimBatch hb
  have hbr : b = s := mem_unique_of_WF hwf hbc.1 hs hbid
  exact hst (hbr ▸ hbc.2.1)

theorem cancelStep_id (now : Int) (itemId : String) (userId : Option String)
    (r : NotificationRecord γ) : (cancelStep now itemId userId r).id = r.id := by
  unfold cancelStep
  split <;> rfl

theorem cancelMatchB_status {itemId : String} {userId : Option String}
    {r : NotificationRecord γ} (h : cancelMatchB itemId userId r = true) :
    r.status = Status.scheduled := by
  unfold cancelMatchB at h
  simp only [Bool.and_eq_true, decide_eq_true_eq] at h
  exact h.1.2

theorem scheduleNotificationRecord_ok_fields {ce : γ → Option String}
    {now : Int} {newId : Nat} {d : NotificationData γ} {r : NotificationRecord γ}
    (h : scheduleNotificationRecord ce now newId d = .ok r) :
    r.id = newId ∧ r.status = Status.scheduled ∧ r.attempts = 0 ∧
      r.maxAttempts = 3 := by
  unfold scheduleNotificationRecord at h
  cases hv : validateNotificationData ce now d with
  | error e =>
    rw [hv] at h
    exact Except.noConfusion h
  | ok u =>
    rw [hv] at h
    injection h with h
    subst h
    exact ⟨rfl, rfl, rfl, rfl⟩

theorem le_foldr_max (l : List Nat) : ∀ i ∈ l, i ≤ l.foldr max 0 := by
  induction l with
  | nil =>
    intro i h
    cases h
  | cons x xs ih =>
    intro i hi
    rcases List.mem_cons.mp hi with rfl | hi'
    · exact le_max_left _ _
    · exact le_trans (ih i hi') (le_max_right _ _)

theorem freshId_not_mem (coll : List (NotificationRecord γ)) :
    freshId coll ∉ coll.map (fun r => r.id) := by
  intro h
  have hle := le_foldr_max (coll.map (fun r => r.id)) _ h
  simp only [freshId] at hle
  omega

theorem WF_applyOp {coll : List (NotificationRecord γ)} (hwf : WF coll)
    (ce : γ → Option String) (op : ChannelOp γ) : WF (applyOp ce coll op) := by
  cases op with
  | schedule now d =>
    simp only [applyOp]
    cases h : scheduleNotificationRecord ce now (freshId coll) d with
    | error e => exact hwf
    | ok r =>
      have hid : r.id = freshId coll := (scheduleNotificationRecord_ok_fields h).1
      have hfresh := freshId_not_mem coll
      simp only [WF, List.map_append, List.map_cons, List.map_nil]
      rw [List.nodup_append]
      refine ⟨hwf, List.nodup_singleton _, ?_⟩
      intro a ha hb
      simp only [List.mem_cons, List.not_mem_nil, or_false] at hb
      rw [hb, hid] at ha
      exact hfresh ha
  | dispatch now out => exact WF_dispatcherPass hwf now out
  | cancel now itemId userId =>
    simp only [applyOp, cancelChannelNotifications]
    exact WF_map_of_id_preserved hwf (cancelStep_id now itemId userId)

/-- Some record with this id exists in the collection and is terminally
failed. -/
def FailedPresent (i : Nat) (coll : List (NotificationRecord γ)) : Prop :=
  ∃ s ∈ coll, s.id = i ∧ s.status = Status.failed

theorem applyOp_preserves_failedPresent {coll : List (NotificationRecord γ)}
    (hwf : WF coll) {i : Nat} (hfp : FailedPresent i coll)
    (ce : γ → Option String) (op : ChannelOp γ) :
    FailedPresent i (applyOp ce coll op) := by
  obtain ⟨s, hs, hsid, hsst⟩ := hfp
  have hstatus : s.status ≠ Status.scheduled := by
    rw [hsst]
    intro h
    exact Status.noConfusion h
  cases op with
  | schedule now d =>
    simp only [applyOp]
    cases h : scheduleNotificationRecord ce now (freshId coll) d with
    | error e => exact ⟨s, hs, hsid, hsst⟩
    | ok r => exact ⟨s, List.mem_append_left _ hs, hsid, hsst⟩
  | dispatch now out =>
    refine ⟨dispatchStep now out coll s, ?_, ?_, ?_⟩
    · simp only [applyOp]
      rw [dispatcherPass_eq_map]
      exact List.mem_map_of_mem _ hs
    · rw [dispatchStep_id]
      exact hsid
    · rw [dispatchStep_eq_self_of_not_scheduled hwf hs hstatus now out]
      exact hsst
  | cancel now itemId userId =>
    have hcs : cancelStep now itemId userId s = s := by
      unfold cancelStep
      rw [if_neg]
      intro h
      exact hstatus (cancelMatchB_status h)
    refine ⟨s, ?_, hsid, hsst⟩
    simp only [applyOp, cancelChannelNotifications]
    rw [← hcs]
    exact List.mem_map_of_mem _ hs

theorem runOps_preserves_WF_failedPresent (ce : γ → Option String) {i : Nat} :
    ∀ (ops : List (ChannelOp γ)) (coll : List (NotificationRecord γ)),
      WF coll → FailedPresent i coll →
      WF (runOps ce coll ops) ∧ FailedPresent i (runOps ce coll ops) := by
  intro ops
  induction ops with
  | nil =>
    intro coll hwf hfp
    exact ⟨hwf, hfp⟩
  | cons op rest ih =>
    intro coll hwf hfp
    exact ih _ (WF_applyOp hwf ce op) (applyOp_preserves_failedPresent hwf hfp ce op)

theorem claimBatch_id_ne_of_failedPresent {coll : List (NotificationRecord γ)}
    (hwf : WF coll) {i : Nat} (hfp : FailedPresent i coll) {now : Int}
    {s : NotificationRecord γ} (hs : s ∈ claimBatch now coll) : s.id ≠ i := by
  obtain ⟨t, ht, htid, htst⟩ := hfp
  intro h
  have hsc := mem_claimBatch hs
  have hst : s = t := mem_unique_of_WF hwf hsc.1 ht (h.trans htid.symm)
  rw [hst, htst] at hsc
  exact Status.noConfusion hsc.2.1

/-! ### Claims -/

/-- Claim C1: a record claimed by the Dispatcher whose send fails while the
incremented attempt count is still below the attempt limit is written back
with status scheduled, attempts equal to the previous attempts plus one,
lastError the failure message, and scheduledDate advanced to now plus
5 times 2 to the incremented attempt count, in minutes. -/
theorem dispatcher_retry_backoff {coll : List (NotificationRecord γ)}
    {now : Int} {out : Nat → Except String Unit} {r : NotificationRecord γ}
    {msg : String} (hwf : WF coll) (hr : r ∈ claimBatch now coll)
    (hout : out r.id = Except.error msg)
    (hlt : r.attempts + 1 < maxAttemptsOf r) :
    findById (dispatcherPass now out coll) r.id = some
      { r with
        status := Status.scheduled
        attempts := r.attempts + 1
        lastError := some msg
        scheduledDate := now + 5 * 2 ^ (r.attempts + 1)
        processedAt := some now
        lastAttempt := some now } := by
  rw [dispatcherPass_findById_claimed hwf hr out, hout]
  have hmax : maxAttemptsOf
      { r with status := Status.processing, processedAt := some now } =
      maxAttemptsOf r := rfl
  simp only [processOne, hmax]
  rw [if_neg (not_le.mpr hlt)]
  have hmul : (2 : Int) ^ (r.attempts + 1) * 5 = 5 * 2 ^ (r.attempts + 1) :=
    mul_comm _ _
  simp [hmul]

/-- Concrete email-channel record shared by the witnesses: due, first
attempt still to come. -/
def sampleDueRecord : NotificationRecord String :=
  { id := 1
    userId := "user-1"
    itemId := "item-1"
    itemName := "Laptop"
    category := "hardware"
    notificationType := "warranty_expiration"
    scheduledDate := 10
    userContact := "user@example.com"
    reminderDaysBefore := 7
    status := .scheduled
    attempts := 0
    maxAttempts := 3
    lastError := none
    createdAt := some 0
    processedAt := none
    sentAt := none
    failedAt := none
    cancelledAt := none
    lastAttempt := none }

theorem dispatcher_retry_backoff_witness :
    WF [sampleDueRecord] ∧
    sampleDueRecord ∈ claimBatch 50 [sampleDueRecord] ∧
    (fun _ : Nat => (Except.error "boom" : Except String Unit))
        sampleDueRecord.id = Except.error "boom" ∧
    sampleDueRecord.attempts + 1 < maxAttemptsOf sampleDueRecord ∧
    findById (dispatcherPass 50 (fun _ => Except.error "boom")
        [sampleDueRecord]) sampleDueRecord.id = some
      { sampleDueRecord with
        status := Status.scheduled
        attempts := 1
        lastError := some "boom"
        scheduledDate := 50 + 5 * 2 ^ 1
        processedAt := some 50
        lastAttempt := some 50 } :=
  ⟨by decide, by decide, rfl, by decide,
    dispatcher_retry_backoff (by decide) (by decide) rfl (by decide)⟩

/-- Claim C2: a claimed record whose send fails when the incremented
attempt count reaches the attempt limit is marked failed with failedAt and
lastError stamped, and a failed record is never again selected by the
due-work query of any later Dispatcher pass, whatever Scheduler, Dispatcher
and Cancellation operations run in between. -/
theorem dispatcher_terminal_failure_never_requeried
    {coll : List (NotificationRecord γ)} {now : Int}
    {out : Nat → Except String Unit} {r : NotificationRecord γ} {msg : String}
    (hwf : WF coll) (hr : r ∈ claimBatch now coll)
    (hout : out r.id = Except.error msg)
    (hge : maxAttemptsOf r ≤ r.attempts + 1) :
    findById (dispatcherPass now out coll) r.id = some
      { r with
        status := Status.failed
        attempts := r.attempts + 1
        lastError := some msg
        failedAt := some now
        processedAt := some now
        lastAttempt := some now } ∧
    ∀ (contactError : γ → Option String) (ops : List (ChannelOp γ))
      (now2 : Int) (s : NotificationRecord γ),
      s ∈ claimBatch now2 (runOps contactError (dispatcherPass now out coll) ops) →
      s.id ≠ r.id := by
  have h1 : findById (dispatcherPass now out coll) r.id = some
      { r with
        status := Status.failed
        attempts := r.attempts + 1
        lastError := some msg
        failedAt := some now
        processedAt := some now
        lastAttempt := some now } := by
    rw [dispatcherPass_findById_claimed hwf hr out, hout]
    have hmax : maxAttemptsOf
        { r with status := Status.processing, processedAt := some now } =
        maxAttemptsOf r := rfl
    simp only [processOne, hmax]
    rw [if_pos hge]
  refine ⟨h1, ?_⟩
  intro ce ops now2 s hs
  have hwf' := WF_dispatcherPass hwf now out
  have hfp : FailedPresent r.id (dispatcherPass now out coll) := by
    refine ⟨{ r with
      status := Status.failed
      attempts := r.attempts + 1
      lastError := some msg
      failedAt := some now
      processedAt := some now
      lastAttempt := some now }, ?_, rfl, rfl⟩
    exact List.mem_of_find?_eq_some h1
  obtain ⟨hwf2, hfp2⟩ :=
    runOps_preserves_WF_failedPresent ce ops (dispatcherPass now out coll) hwf' hfp
  exact claimBatch_id_ne_of_failedPresent hwf2 hfp2 hs

/-- Concrete record on its last permitted attempt, shared by the witness of
the terminal-failure claim. -/
def sampleLastAttemptRecord : NotificationRecord String :=
  { sampleDueRecord with id := 2, attempts := 2, lastError := some "boom" }

theorem dispatcher_terminal_failure_witness :
    WF [sampleLastAttemptRecord] ∧
    sampleLastAttemptRecord ∈ claimBatch 50 [sampleLastAttemptRecord] ∧
    (fun _ : Nat => (Except.error "boom" : Except String Unit))
        sampleLastAttemptRecord.id = Except.error "boom" ∧
    maxAttemptsOf sampleLastAttemptRecord ≤ sampleLastAttemptRecord.attempts + 1 ∧
    (findById (dispatcherPass 50 (fun _ => Except.error "boom")
        [sampleLastAttemptRecord]) sampleLastAttemptRecord.id = some
      { sampleLastAttemptRecord with
        status := Status.failed
        attempts := 3
        lastError := some "boom"
        failedAt := some 50
        processedAt := some 50
        lastAttempt := some 50 } ∧
    ∀ (contactError : String → Option String) (ops : List (ChannelOp String))
      (now2 : Int) (s : NotificationRecord String),
      s ∈ claimBatch now2 (runOps contactError
        (dispatcherPass 50 (fun _ => Except.error "boom")
          [sampleLastAttemptRecord]) ops) →
      s.id ≠ sampleLastAttemptRecord.id) :=
  ⟨by decide, by decide, rfl, by decide,
    dispatcher_terminal_failure_never_requeried (by decide) (by decide) rfl
      (by decide)⟩

/-- Inductive invariant behind the attempt-limit claim: every record holds
the default limit 3, its attempt count never passes 3, and a record still
eligible for dispatch has strictly fewer than 3 attempts. -/
def AttemptsInv (coll : List (NotificationRecord γ)) : Prop :=
  ∀ r ∈ coll, r.maxAttempts = 3 ∧ r.attempts ≤ 3 ∧
    (r.status = Status.scheduled → r.attempts < 3)

theorem applyOp_preserves_attemptsInv {coll : List (NotificationRecord γ)}
    (hwf : WF coll) (hinv : AttemptsInv coll) (ce : γ → Option String)
    (op : ChannelOp γ) : AttemptsInv (applyOp ce coll op) := by
  cases op with
  | schedule now d =>
    simp only [applyOp]
    cases h : scheduleNotificationRecord ce now (freshId coll) d with
    | error e => exact hinv
    | ok r =>
      intro s hs
      rcases List.mem_append.mp hs with hs' | hs'
      · exact hinv s hs'
      · have hsr : s = r := by simpa using hs'
        obtain ⟨_, hst, hat, hmax⟩ := scheduleNotificationRecord_ok_fields h
        subst hsr
        exact ⟨hmax, by omega, fun _ => by omega⟩
  | dispatch now out =>
    intro s hs
    simp only [applyOp] at hs
    rw [dispatcherPass_eq_map] at hs
    rcases List.mem_map.mp hs with ⟨r, hr, rfl⟩
    unfold dispatchStep
    by_cases hid : r.id ∈ (claimBatch now coll).map (fun b => b.id)
    · rcases List.mem_map.mp hid with ⟨b, hb, hbid⟩
      have hbc := mem_claimBatch hb
      have hbr : b = r := mem_unique_of_WF hwf hbc.1 hr hbid
      have hrsched : r.status = Status.scheduled := hbr ▸ hbc.2.1
      obtain ⟨hm3, hle, hlt⟩ := hinv r hr
      have hrlt : r.attempts < 3 := hlt hrsched
      rw [if_pos hid]
      cases hout : out r.id with
      | ok v =>
        simp only [processOne]
        exact ⟨hm3, hle, fun h => Status.noConfusion h⟩
      | error msg =>
        have h3 : maxAttemptsOf
            { r with status := Status.processing, processedAt := some now } = 3 := by
          unfold maxAttemptsOf
          simp [hm3]
        simp only [processOne, h3]
        split
        · exact ⟨hm3, by show r.attempts + 1 ≤ 3; omega,
            fun h => Status.noConfusion h⟩
        · rename_i hc
          have hc2 : ¬ (3 ≤ r.attempts + 1) := by simpa using hc
          exact ⟨hm3, by show r.attempts + 1 ≤ 3; omega,
            fun _ => by show r.attempts + 1 < 3; omega⟩
    · rw [if_neg hid]
      exact hinv r hr
  | cancel now itemId userId =>
    intro s hs
    simp only [applyOp, cancelChannelNotifications] at hs
    rcases List.mem_map.mp hs with ⟨r, hr, rfl⟩
    obtain ⟨hm3, hle, hlt⟩ := hinv r hr
    unfold cancelStep
    split
    · exact ⟨hm3, hle, fun h => Status.noConfusion h⟩
    · exact ⟨hm3, hle, hlt⟩

/-- Claim C6: against any sequence of Scheduler, Dispatcher and
Cancellation operations starting from an empty channel collection, the
attempts field of every record never exceeds its maxAttempts field. -/
theorem attempts_never_exceed_max (contactError : γ → Option String)
    (ops : List (ChannelOp γ)) :
    ∀ r ∈ runOps contactError [] ops, r.attempts ≤ r.maxAttempts := by
  have main : ∀ (ops2 : List (ChannelOp γ)) (coll : List (NotificationRecord γ)),
      WF coll → AttemptsInv coll → AttemptsInv (runOps contactError coll ops2) := by
    intro ops2
    induction ops2 with
    | nil =>
      intro coll _ h
      exact h
    | cons op rest ih =>
      intro coll hwf hinv
      exact ih _ (WF_applyOp hwf contactError op)
        (applyOp_preserves_attemptsInv hwf hinv contactError op)
  intro r hr
  obtain ⟨hm, hle, _⟩ := main ops [] List.nodup_nil
    (fun s hs => absurd hs (by simp)) r hr
  omega

/-- Concrete scheduling data shared by the invariant witness. -/
def sampleScheduleData : NotificationData String :=
  { userId := "user-1"
    itemId := "item-1"
    itemName := "Laptop"
    category := "hardware"
    notificationType := "warranty_expiration"
    scheduledDate := 10
    userContact := "user@example.com"
    reminderDaysBefore := 7 }

/-- The record the Scheduler persists for `sampleScheduleData` on an empty
collection. -/
def sampleScheduledOutcome : NotificationRecord String :=
  { sampleDueRecord with createdAt := some 0 }

theorem attempts_never_exceed_max_witness :
    sampleScheduledOutcome ∈ runOps emailContactError []
      [ChannelOp.schedule 0 sampleScheduleData] ∧
    sampleScheduledOutcome.attempts ≤ sampleScheduledOutcome.maxAttempts :=
  ⟨by decide,
    attempts_never_exceed_max emailContactError
      [ChannelOp.schedule 0 sampleScheduleData] sampleScheduledOutcome (by decide)⟩

theorem cancel_countP_cancelled (now : Int) (itemId : String)
    (userId : Option String) (coll : List (NotificationRecord γ)) :
    (cancelChannelNotifications now itemId userId coll).1.countP
        (fun r => decide (r.status = Status.cancelled)) =
      coll.countP (fun r => decide (r.status = Status.cancelled)) +
        (cancelChannelNotifications now itemId userId coll).2 := by
  induction coll with
  | nil => rfl
  | cons x xs ih =>
    simp only [cancelChannelNotifications] at ih ⊢
    rw [List.map_cons, List.countP_cons, List.countP_cons, List.filter_cons]
    by_cases hx : cancelMatchB itemId userId x = true
    · have hfx : (cancelStep now itemId userId x).status = Status.cancelled := by
        unfold cancelStep
        rw [if_pos hx]
      have hxstat : x.status = Status.scheduled := cancelMatchB_status hx
      rw [hfx, hxstat, hx]
      have e1 : (if decide (Status.cancelled = Status.cancelled) = true
          then 1 else 0) = 1 := rfl
      have e2 : (if decide (Status.scheduled = Status.cancelled) = true
          then 1 else 0) = 0 := rfl
      have e3 : (if true = true then x :: xs.filter (cancelMatchB itemId userId)
          else xs.filter (cancelMatchB itemId userId)) =
          x :: xs.filter (cancelMatchB itemId userId) := rfl
      rw [e1, e2, e3, List.length_cons]
      omega
    · have hfx : cancelStep now itemId userId x = x := by
        unfold cancelStep
        rw [if_neg hx]
      have hxb : cancelMatchB itemId userId x = false := by
        revert hx
        cases cancelMatchB itemId userId x <;> simp
      rw [hfx, hxb]
      have e3 : (if false = true then x :: xs.filter (cancelMatchB itemId userId)
          else xs.filter (cancelMatchB itemId userId)) =
          xs.filter (cancelMatchB itemId userId) := rfl
      rw [e3]
      omega

theorem cancel_rerun_zero (now now2 : Int) (itemId : String)
    (userId : Option String) (coll : List (NotificationRecord γ)) :
    (cancelChannelNotifications now2 itemId userId
      (cancelChannelNotifications now itemId userId coll).1).2 = 0 := by
  simp only [cancelChannelNotifications]
  rw [List.length_eq_zero, List.filter_eq_nil_iff]
  intro a ha
  rcases List.mem_map.mp ha with ⟨r, hr, rfl⟩
  unfold cancelStep
  by_cases hx : cancelMatchB itemId userId r = true
  · rw [if_pos hx]
    unfold cancelMatchB
    simp
  · rw [if_neg hx]
    exact fun h => hx h

/-- Claim C7: one cancellation call transitions exactly the scheduled
records matching the subject to cancelled with cancelledAt stamped, leaves
every non-matching record (in particular anything processing, sent, failed
or already cancelled) in the collection unchanged, deletes nothing, returns
a count equal to the number of records transitioned, and an immediately
repeated cancellation of the same subject returns count zero. -/
theorem cancel_exactly_scheduled_matches (coll : List (NotificationRecord γ))
    (now now2 : Int) (itemId : String) (userId : Option String) :
    (∀ r ∈ coll, cancelMatchB itemId userId r = true →
      { r with status := Status.cancelled, cancelledAt := some now } ∈
        (cancelChannelNotifications now itemId userId coll).1) ∧
    (∀ r ∈ coll, cancelMatchB itemId userId r = false →
      r ∈ (cancelChannelNotifications now itemId userId coll).1) ∧
    (cancelChannelNotifications now itemId userId coll).1.length = coll.length ∧
    ((cancelChannelNotifications now itemId userId coll).1.countP
        (fun r => decide (r.status = Status.cancelled)) =
      coll.countP (fun r => decide (r.status = Status.cancelled)) +
        (cancelChannelNotifications now itemId userId coll).2) ∧
    (cancelChannelNotifications now2 itemId userId
      (cancelChannelNotifications now itemId userId coll).1).2 = 0 := by
  refine ⟨?_, ?_, ?_, cancel_countP_cancelled now itemId userId coll,
    cancel_rerun_zero now now2 itemId userId coll⟩
  · intro r hr hm
    have hstep : cancelStep now itemId userId r =
        { r with status := Status.cancelled, cancelledAt := some now } := by
      unfold cancelStep
      rw [if_pos hm]
    rw [← hstep]
    exact List.mem_map_of_mem _ hr
  · intro r hr hm
    have hstep : cancelStep now itemId userId r = r := by
      unfold cancelStep
      rw [if_neg (by simp [hm])]
    rw [← hstep]
    exact List.mem_map_of_mem _ hr
  · exact List.length_map coll _

/-- Concrete three-record collection shared by the cancellation witness:
one scheduled match, one already sent record of the same item, one
scheduled record of a different item. -/
def sampleCancelColl : List (NotificationRecord String) :=
  [ sampleDueRecord,
    { sampleDueRecord with id := 2, status := Status.sent, sentAt := some 20 },
    { sampleDueRecord with id := 3, itemId := "item-2" } ]

theorem cancel_exactly_scheduled_matches_witness :
    (∀ r ∈ sampleCancelColl, cancelMatchB "item-1" none r = true →
      { r with status := Status.cancelled, cancelledAt := some (9 : Int) } ∈
        (cancelChannelNotifications 9 "item-1" none sampleCancelColl).1) ∧
    (∀ r ∈ sampleCancelColl, cancelMatchB "item-1" none r = false →
      r ∈ (cancelChannelNotifications 9 "item-1" none sampleCancelColl).1) ∧
    (cancelChannelNotifications 9 "item-1" none sampleCancelColl).1.length =
      sampleCancelColl.length ∧
    ((cancelChannelNotifications 9 "item-1" none sampleCancelColl).1.countP
        (fun r => decide (r.status = Status.cancelled)) =
      sampleCancelColl.countP (fun r => decide (r.status = Status.cancelled)) +
        (cancelChannelNotifications 9 "item-1" none sampleCancelColl).2) ∧
    (cancelChannelNotifications 11 "item-1" none
      (cancelChannelNotifications 9 "item-1" none sampleCancelColl).1).2 = 0 :=
  cancel_exactly_scheduled_matches sampleCancelColl 9 11 "item-1" none

theorem contains_map_id_iff (docs : List (NotificationRecord γ)) (i : Nat) :
    (docs.map (fun r => r.id)).contains i = true ↔
      ∃ b ∈ docs, b.id = i := by
  rw [List.contains, List.elem_iff]
  constructor
  · intro h
    rcases List.mem_map.mp h with ⟨b, hb, hbi⟩
    exact ⟨b, hb, hbi⟩
  · intro ⟨b, hb, hbi⟩
    exact hbi ▸ List.mem_map_of_mem (fun r => r.id) hb

/-- Claim C8 (amended): one sweeper run deletes, per channel collection, at
most 500 records in a single batch, deletes only records that match the
retention query (status sent or failed with processedAt before the 30-day
cutoff; in particular no scheduled, processing or cancelled record is ever
deleted regardless of age), and deletes exactly the matching records
whenever at most 500 of them exist; there is no loop draining the backlog
within one run. -/
theorem cleanup_bounded_single_batch (coll : List (NotificationRecord γ))
    (now : Int) (hwf : WF coll) :
    (cleanupCollection now coll).2 ≤ 500 ∧
    (∀ r ∈ coll, oldTerminalB (retentionCutoff now) r = false →
      r ∈ (cleanupCollection now coll).1) ∧
    (∀ r ∈ coll, r ∉ (cleanupCollection now coll).1 →
      oldTerminalB (retentionCutoff now) r = true) ∧
    ((coll.filter (oldTerminalB (retentionCutoff now))).length ≤ 500 →
      ∀ r ∈ coll, oldTerminalB (retentionCutoff now) r = true →
        r ∉ (cleanupCollection now coll).1) := by
  have hids : ∀ r : NotificationRecord γ,
      (((coll.filter (oldTerminalB (retentionCutoff now))).take 500).map
        (fun b => b.id)).contains r.id = true → r ∈ coll →
        oldTerminalB (retentionCutoff now) r = true := by
    intro r hc hrc
    rcases (contains_map_id_iff _ _).mp hc with ⟨b, hb, hbi⟩
    have hbm := List.mem_filter.mp (List.mem_of_mem_take hb)
    have hbr : b = r := mem_unique_of_WF hwf hbm.1 hrc hbi
    exact hbr ▸ hbm.2
  refine ⟨?_, ?_, ?_, ?_⟩
  · show ((coll.filter (oldTerminalB (retentionCutoff now))).take 500).length ≤ 500
    rw [List.length_take]
    exact min_le_left _ _
  · intro r hr hold
    show r ∈ coll.filter _
    rw [List.mem_filter]
    refine ⟨hr, ?_⟩
    rw [Bool.not_eq_true']
    rw [Bool.eq_false_iff]
    intro hc
    rw [hids r hc hr] at hold
    exact Bool.noConfusion hold
  · intro r hr hnot
    by_contra hbad
    apply hnot
    show r ∈ coll.filter _
    rw [List.mem_filter]
    refine ⟨hr, ?_⟩
    rw [Bool.not_eq_true']
    rw [Bool.eq_false_iff]
    intro hc
    exact hbad (hids r hc hr)
  · intro hle r hr hold
    intro hmem
    have hmf := List.mem_filter.mp hmem
    have hcontains : (((coll.filter (oldTerminalB (retentionCutoff now))).take 500).map
        (fun b => b.id)).contains r.id = true := by
      rw [List.take_of_length_le hle]
      exact (contains_map_id_iff _ _).mpr ⟨r, List.mem_filter.mpr ⟨hr, hold⟩, rfl⟩
    rw [hcontains] at hmf
    exact Bool.noConfusion hmf.2

/-- Concrete collection shared by the sweeper witness: one old sent record,
one fresh sent record, one old but still scheduled record. -/
def sampleSweepColl : List (NotificationRecord String) :=
  [ { sampleDueRecord with
      id := 1
      status := Status.sent
      processedAt := some 0
      sentAt := some 0 },
    { sampleDueRecord with
      id := 2
      status := Status.sent
      processedAt := some 99000
      sentAt := some 99000 },
    { sampleDueRecord with
      id := 3
      status := Status.scheduled
      processedAt := some 0 } ]

theorem cleanup_bounded_single_batch_witness :
    WF sampleSweepColl ∧
    ((cleanupCollection 100000 sampleSweepColl).2 ≤ 500 ∧
    (∀ r ∈ sampleSweepColl,
      oldTerminalB (retentionCutoff 100000) r = false →
      r ∈ (cleanupCollection 100000 sampleSweepColl).1) ∧
    (∀ r ∈ sampleSweepColl,
      r ∉ (cleanupCollection 100000 sampleSweepColl).1 →
      oldTerminalB (retentionCutoff 100000) r = true) ∧
    ((sampleSweepColl.filter (oldTerminalB (retentionCutoff 100000))).length ≤ 500 →
      ∀ r ∈ sampleSweepColl,
        oldTerminalB (retentionCutoff 100000) r = true →
        r ∉ (cleanupCollection 100000 sampleSweepColl).1)) :=
  ⟨by decide, cleanup_bounded_single_batch sampleSweepColl 100000 (by decide)⟩

/-- Record builder for the sweeper counterexample: an old sent record with
the given document id. -/
def oldSentRecord (i : Nat) : NotificationRecord String :=
  { id := i
    userId := "u"
    itemId := "item"
    itemName := "Item"
    category := "general"
    notificationType := "reminder"
    scheduledDate := 0
    userContact := "user@example.com"
    reminderDaysBefore := 7
    status := .sent
    attempts := 1
    maxAttempts := 3
    lastError := none
    createdAt := some 0
    processedAt := some 0
    sentAt := some 0
    failedAt := none
    cancelledAt := none
    lastAttempt := some 0 }

/-- A collection of 501 distinct old sent records: one more than the
single-pass batch bound of the sweeper. -/
def oldSentBacklog : List (NotificationRecord String) :=
  (List.range 501).map oldSentRecord

set_option maxRecDepth 100000 in
set_option maxHeartbeats 4000000 in
/-- Counterexample to claim C8 as stated: after one full sweeper run over a
collection of 501 records that all match the retention query, one matching
record still remains, so a single run does not delete every old terminal
record and there is no loop draining the rest. -/
theorem cleanup_leaves_old_record_after_run :
    ((cleanupCollection 100000 oldSentBacklog).1.filter
      (oldTerminalB (retentionCutoff 100000))).length = 1 := by decide

/-- Concrete due push record with no device tokens. -/
def emptyTokensRecord : NotificationRecord (List String) :=
  { id := 3
    userId := "user-1"
    itemId := "item-1"
    itemName := "Laptop"
    category := "hardware"
    notificationType := "warranty_expiration"
    scheduledDate := 5
    userContact := []
    reminderDaysBefore := 7
    status := .scheduled
    attempts := 0
    maxAttempts := 3
    lastError := none
    createdAt := some 0
    processedAt := none
    sentAt := none
    failedAt := none
    cancelledAt := none
    lastAttempt := none }

/-- Counterexample to claim C4 as stated: a claimed push record whose token
list is empty does not keep its status unchanged — the early return of the
send helper counts as success, so the Dispatcher marks the record sent and
stamps sentAt. -/
theorem push_empty_tokens_status_changed_cex :
    emptyTokensRecord.status = Status.scheduled ∧
    findById (dispatcherPass 10
        (fun _ => sendPushNotification emptyTokensRecord.userContact
          emptyTokensRecord.itemName []) [emptyTokensRecord])
        emptyTokensRecord.id = some
      { emptyTokensRecord with
        status := Status.sent
        processedAt := some 10
        sentAt := some 10
        lastAttempt := some 10 } := by
  exact ⟨rfl, by decide⟩

/-- Claim C4 (amended): a claimed push record whose token list is missing
or empty triggers no delivery attempt (the send outcome is a normal return
independent of every transport outcome) and its attempt count is untouched,
but the record is not left unchanged: the success path runs, so it is
marked sent with sentAt stamped and counts as a success. -/
theorem push_empty_tokens_no_attempt_marked_sent
    {coll : List (NotificationRecord (List String))} {now : Int}
    {out : Nat → Except String Unit} {r : NotificationRecord (List String)}
    {transport : List Bool} (hwf : WF coll) (hr : r ∈ claimBatch now coll)
    (hempty : r.userContact = [])
    (hout : out r.id = sendPushNotification r.userContact r.itemName transport) :
    (∀ t : List Bool, sendPushNotification r.userContact r.itemName t =
      Except.ok ()) ∧
    findById (dispatcherPass now out coll) r.id = some
      { r with
        status := Status.sent
        sentAt := some now
        processedAt := some now
        lastAttempt := some now } := by
  have hok : ∀ t : List Bool,
      sendPushNotification r.userContact r.itemName t = Except.ok () := by
    intro t
    rw [hempty]
    rfl
  refine ⟨hok, ?_⟩
  rw [dispatcherPass_findById_claimed hwf hr out, hout, hok transport]
  rfl

theorem push_empty_tokens_no_attempt_marked_sent_witness :
    WF [emptyTokensRecord] ∧
    emptyTokensRecord ∈ claimBatch 10 [emptyTokensRecord] ∧
    emptyTokensRecord.userContact = [] ∧
    ((∀ t : List Bool, sendPushNotification emptyTokensRecord.userContact
        emptyTokensRecord.itemName t = Except.ok ()) ∧
    findById (dispatcherPass 10
        (fun _ => sendPushNotification emptyTokensRecord.userContact
          emptyTokensRecord.itemName []) [emptyTokensRecord])
        emptyTokensRecord.id = some
      { emptyTokensRecord with
        status := Status.sent
        sentAt := some 10
        processedAt := some 10
        lastAttempt := some 10 }) :=
  ⟨by decide, by decide, rfl,
    push_empty_tokens_no_attempt_marked_sent (by decide) (by decide) rfl rfl⟩

/-- Concrete due push record with one device token. -/
def oneTokenRecord : NotificationRecord (List String) :=
  { emptyTokensRecord with id := 4, userContact := ["tokenA"] }

/-- Claim C5, failing input: a claimed push record with one token whose
delivery fails (the push service catches the transport error and resolves
false, so the per-token promise fulfils with false).  `hasSuccess` in the
scheduler only checks that some promise settled as fulfilled, so the record
is marked sent even though delivery succeeded for no token, instead of
taking the failure and retry path the claim (and the code's own
`All push notifications failed` branch) intends. -/
theorem push_all_token_failures_marked_sent :
    PushNotificationService.send false = SettledBool.fulfilled false ∧
    sendPushNotification ["tokenA"] "Laptop" [false] = Except.ok () ∧
    findById (dispatcherPass 10
        (fun _ => sendPushNotification oneTokenRecord.userContact
          oneTokenRecord.itemName [false]) [oneTokenRecord])
        oneTokenRecord.id = some
      { oneTokenRecord with
        status := Status.sent
        processedAt := some 10
        sentAt := some 10
        lastAttempt := some 10 } := by
  exact ⟨rfl, rfl, by decide⟩

/-- Concrete SMS scheduling request whose phone number is present but not
in E.164 format. -/
def malformedPhoneData : NotificationData String :=
  { userId := "user-1"
    itemId := "item-1"
    itemName := "Printer"
    category := "hardware"
    notificationType := "warranty_expiration"
    scheduledDate := 500
    userContact := "12345"
    reminderDaysBefore := 7 }

/-- Counterexample to claim C9 as stated: the phone number 12345 is not in
E.164 format, yet the SMS Scheduler accepts the request and persists a
scheduled record — its validation only checks that a phone number is
present, never its format. -/
theorem sms_malformed_phone_persisted_cex :
    isValidPhoneNumber "12345" = false ∧
    scheduleSMSNotification 0 7 malformedPhoneData = Except.ok
      { id := 7
        userId := "user-1"
        itemId := "item-1"
        itemName := "Printer"
        category := "hardware"
        notificationType := "warranty_expiration"
        scheduledDate := 500
        userContact := "12345"
        reminderDaysBefore := 7
        status := .scheduled
        attempts := 0
        maxAttempts := 3
        lastError := none
        createdAt := some 0
        processedAt := none
        sentAt := none
        failedAt := none
        cancelledAt := none
        lastAttempt := none } :=
  ⟨rfl, rfl⟩

/-- Claim C9 (amended): the SMS Scheduler checks only that the phone number
is present; a present but non-E.164 number passes validation and a
scheduled record is persisted.  Well-formedness is deferred to delivery
time: SMSService.sendSMS rejects the malformed number before any transport
call, so every delivery attempt for the record throws the SMS failure
error. -/
theorem sms_format_checked_at_delivery {d : NotificationData String}
    {now : Int} {newId : Nat} (hu : d.userId ≠ "") (hi : d.itemId ≠ "")
    (hn : d.itemName ≠ "") (hfut : now < d.scheduledDate)
    (hphone : d.userContact ≠ "")
    (hbad : isValidPhoneNumber d.userContact = false) :
    (∃ r, scheduleSMSNotification now newId d = Except.ok r ∧
      r.status = Status.scheduled ∧ r.userContact = d.userContact) ∧
    (∀ transport : Bool, SMSService.sendSMS d.userContact transport = false) ∧
    (∀ transport : Bool, sendSMSNotification d.userContact d.itemName transport =
      Except.error ("SMS failed for " ++ d.itemName ++
        ": No response from SMS service")) := by
  have hsend : ∀ transport : Bool,
      SMSService.sendSMS d.userContact transport = false := by
    intro transport
    unfold SMSService.sendSMS
    rw [hbad]
    rfl
  refine ⟨?_, hsend, ?_⟩
  · unfold scheduleSMSNotification scheduleNotificationRecord
      validateNotificationData
    rw [if_neg hu, if_neg hi, if_neg hn, if_neg (not_le.mpr hfut)]
    have hc : phoneContactError d.userContact = none := by
      unfold phoneContactError
      rw [if_neg hphone]
    rw [hc]
    exact ⟨_, rfl, rfl, rfl⟩
  · intro transport
    unfold sendSMSNotification
    rw [if_neg hphone, hsend transport]
    rfl

theorem sms_format_checked_at_delivery_witness :
    malformedPhoneData.userId ≠ "" ∧
    malformedPhoneData.userContact ≠ "" ∧
    0 < malformedPhoneData.scheduledDate ∧
    isValidPhoneNumber malformedPhoneData.userContact = false ∧
    ((∃ r, scheduleSMSNotification 0 7 malformedPhoneData = Except.ok r ∧
      r.status = Status.scheduled ∧
      r.userContact = malformedPhoneData.userContact) ∧
    (∀ transport : Bool,
      SMSService.sendSMS malformedPhoneData.userContact transport = false) ∧
    (∀ transport : Bool,
      sendSMSNotification malformedPhoneData.userContact
        malformedPhoneData.itemName transport =
      Except.error ("SMS failed for " ++ malformedPhoneData.itemName ++
        ": No response from SMS service"))) :=
  ⟨by decide, by decide, by decide, rfl,
    sms_format_checked_at_delivery (by decide) (by decide) (by decide)
      (by decide) (by decide) rfl⟩

theorem scheduleNotificationRecord_of_valid (ce : γ → Option String)
    (now : Int) (newId : Nat) (d : NotificationData γ)
    (hu : d.userId ≠ "") (hi : d.itemId ≠ "") (hn : d.itemName ≠ "")
    (hfut : now < d.scheduledDate) (hc : ce d.userContact = none) :
    ∃ r, scheduleNotificationRecord ce now newId d = Except.ok r ∧
      r.status = Status.scheduled ∧ r.attempts = 0 ∧ r.maxAttempts = 3 ∧
      r.id = newId ∧ r.userContact = d.userContact := by
  unfold scheduleNotificationRecord validateNotificationData
  rw [if_neg hu, if_neg hi, if_neg hn, if_neg (not_le.mpr hfut), hc]
  exact ⟨_, rfl, rfl, rfl, rfl, rfl, rfl⟩

theorem fanoutChannelData_scheduledDate {req : FanoutRequest} {due : Int}
    (hdate : req.scheduledDate = some due) (contact : γ) :
    (fanoutChannelData req contact).scheduledDate = due := by
  show req.scheduledDate.getD 0 = due
  rw [hdate]
  rfl

theorem fanoutPushRes_of_elig (now : Int) (pushId : Nat) {req : FanoutRequest}
    (hp : eligPush req) (hu : req.userId ≠ "") (hi : req.itemId ≠ "")
    (hn : req.itemName ≠ "") {due : Int} (hdate : req.scheduledDate = some due)
    (hfut : now < due) :
    ∃ r, fanoutPushRes now pushId req = some (Except.ok r) ∧
      r.status = Status.scheduled ∧ r.attempts = 0 ∧ r.id = pushId := by
  have hib : ((effectiveContact req).fcmTokens).isEmpty = false := by
    cases hcl : (effectiveContact req).fcmTokens with
    | nil => exact absurd hcl hp.2
    | cons a l => rfl
  have hc : fcmContactError (effectiveContact req).fcmTokens = none := by
    unfold fcmContactError
    rw [hib]
    rfl
  obtain ⟨r, hr, h1, h2, _, h4, _⟩ := scheduleNotificationRecord_of_valid
    fcmContactError now pushId
    (fanoutChannelData req (effectiveContact req).fcmTokens) hu hi hn
    ((fanoutChannelData_scheduledDate hdate _).symm ▸ hfut) hc
  refine ⟨r, ?_, h1, h2, h4⟩
  unfold fanoutPushRes schedulePushNotification
  rw [if_pos hp, hr]

theorem fanoutEmailRes_of_elig (now : Int) (emailId : Nat) {req : FanoutRequest}
    (he : eligEmail req) (hu : req.userId ≠ "") (hi : req.itemId ≠ "")
    (hn : req.itemName ≠ "") {due : Int} (hdate : req.scheduledDate = some due)
    (hfut : now < due) :
    ∃ r, fanoutEmailRes now emailId req = some (Except.ok r) ∧
      r.status = Status.scheduled ∧ r.attempts = 0 ∧ r.id = emailId := by
  have hc : emailContactError (effectiveContact req).email = none := by
    unfold emailContactError
    rw [if_neg he.2]
  obtain ⟨r, hr, h1, h2, _, h4, _⟩ := scheduleNotificationRecord_of_valid
    emailContactError now emailId
    (fanoutChannelData req (effectiveContact req).email) hu hi hn
    ((fanoutChannelData_scheduledDate hdate _).symm ▸ hfut) hc
  refine ⟨r, ?_, h1, h2, h4⟩
  unfold fanoutEmailRes scheduleEmailNotification
  rw [if_pos he, hr]

theorem fanoutSmsRes_of_elig (now : Int) (smsId : Nat) {req : FanoutRequest}
    (hs : eligSms req) (hu : req.userId ≠ "") (hi : req.itemId ≠ "")
    (hn : req.itemName ≠ "") {due : Int} (hdate : req.scheduledDate = some due)
    (hfut : now < due) :
    ∃ r, fanoutSmsRes now smsId req = some (Except.ok r) ∧
      r.status = Status.scheduled ∧ r.attempts = 0 ∧ r.id = smsId := by
  have hc : phoneContactError (effectiveContact req).phone = none := by
    unfold phoneContactError
    rw [if_neg hs.2]
  obtain ⟨r, hr, h1, h2, _, h4, _⟩ := scheduleNotificationRecord_of_valid
    phoneContactError now smsId
    (fanoutChannelData req (effectiveContact req).phone) hu hi hn
    ((fanoutChannelData_scheduledDate hdate _).symm ▸ hfut) hc
  refine ⟨r, ?_, h1, h2, h4⟩
  unfold fanoutSmsRes scheduleSMSNotification
  rw [if_pos hs, hr]

theorem fanoutPushRes_of_not_elig (now : Int) (pushId : Nat)
    {req : FanoutRequest} (hp : ¬ eligPush req) :
    fanoutPushRes now pushId req = none := by
  unfold fanoutPushRes
  rw [if_neg hp]

theorem fanoutEmailRes_of_not_elig (now : Int) (emailId : Nat)
    {req : FanoutRequest} (he : ¬ eligEmail req) :
    fanoutEmailRes now emailId req = none := by
  unfold fanoutEmailRes
  rw [if_neg he]

theorem fanoutSmsRes_of_not_elig (now : Int) (smsId : Nat)
    {req : FanoutRequest} (hs : ¬ eligSms req) :
    fanoutSmsRes now smsId req = none := by
  unfold fanoutSmsRes
  rw [if_neg hs]

theorem fanoutPushRes_not_errored (now : Int) (pushId : Nat)
    {req : FanoutRequest} (hu : req.userId ≠ "") (hi : req.itemId ≠ "")
    (hn : req.itemName ≠ "") {due : Int} (hdate : req.scheduledDate = some due)
    (hfut : now < due) :
    channelErrored (fanoutPushRes now pushId req) = false := by
  by_cases hp : eligPush req
  · obtain ⟨r, hr, _⟩ := fanoutPushRes_of_elig now pushId hp hu hi hn hdate hfut
    rw [hr]
    rfl
  · rw [fanoutPushRes_of_not_elig now pushId hp]
    rfl

theorem fanoutEmailRes_not_errored (now : Int) (emailId : Nat)
    {req : FanoutRequest} (hu : req.userId ≠ "") (hi : req.itemId ≠ "")
    (hn : req.itemName ≠ "") {due : Int} (hdate : req.scheduledDate = some due)
    (hfut : now < due) :
    channelErrored (fanoutEmailRes now emailId req) = false := by
  by_cases he : eligEmail req
  · obtain ⟨r, hr, _⟩ := fanoutEmailRes_of_elig now emailId he hu hi hn hdate hfut
    rw [hr]
    rfl
  · rw [fanoutEmailRes_of_not_elig now emailId he]
    rfl

theorem fanoutSmsRes_not_errored (now : Int) (smsId : Nat)
    {req : FanoutRequest} (hu : req.userId ≠ "") (hi : req.itemId ≠ "")
    (hn : req.itemName ≠ "") {due : Int} (hdate : req.scheduledDate = some due)
    (hfut : now < due) :
    channelErrored (fanoutSmsRes now smsId req) = false := by
  by_cases hs : eligSms req
  · obtain ⟨r, hr, _⟩ := fanoutSmsRes_of_elig now smsId hs hu hi hn hdate hfut
    rw [hr]
    rfl
  · rw [fanoutSmsRes_of_not_elig now smsId hs]
    rfl

theorem fanout_base_checks_pass {req : FanoutRequest} (hu : req.userId ≠ "")
    (hi : req.itemId ≠ "") (hn : req.itemName ≠ "") {due : Int}
    (hdate : req.scheduledDate = some due) :
    ¬ (req.userId = "" ∨ req.itemId = "" ∨ req.itemName = "" ∨
      req.scheduledDate.isNone) := by
  intro h
  rcases h with h | h | h | h
  · exact hu h
  · exact hi h
  · exact hn h
  · rw [hdate] at h
    exact Bool.noConfusion h

theorem fanout_due_check_passes {req : FanoutRequest} {now due : Int}
    (hdate : req.scheduledDate = some due) (hfut : now < due) :
    ¬ (req.scheduledDate.getD 0 ≤ now) := by
  rw [hdate]
  exact not_le.mpr hfut

theorem scheduleItemNotification_eq_ok {req : FanoutRequest} {now : Int}
    (pushId emailId smsId : Nat) (hu : req.userId ≠ "") (hi : req.itemId ≠ "")
    (hn : req.itemName ≠ "") {due : Int} (hdate : req.scheduledDate = some due)
    (hfut : now < due)
    (h3 : ¬ ((fanoutPushRes now pushId req).isNone ∧
      (fanoutEmailRes now emailId req).isNone ∧
      (fanoutSmsRes now smsId req).isNone)) :
    scheduleItemNotification now pushId emailId smsId req =
      { response := .ok
          { push := ((fanoutPushRes now pushId req).bind Except.toOption).map
              (fun r => r.id)
            email := ((fanoutEmailRes now emailId req).bind Except.toOption).map
              (fun r => r.id)
            sms := ((fanoutSmsRes now smsId req).bind Except.toOption).map
              (fun r => r.id) }
        pushRecord := (fanoutPushRes now pushId req).bind Except.toOption
        emailRecord := (fanoutEmailRes now emailId req).bind Except.toOption
        smsRecord := (fanoutSmsRes now smsId req).bind Except.toOption } := by
  have h4 : ¬ (channelErrored (fanoutPushRes now pushId req) = true ∨
      channelErrored (fanoutEmailRes now emailId req) = true ∨
      channelErrored (fanoutSmsRes now smsId req) = true) := by
    rw [fanoutPushRes_not_errored now pushId hu hi hn hdate hfut,
      fanoutEmailRes_not_errored now emailId hu hi hn hdate hfut,
      fanoutSmsRes_not_errored now smsId hu hi hn hdate hfut]
    simp
  unfold scheduleItemNotification
  rw [if_neg (fanout_base_checks_pass hu hi hn hdate),
    if_neg (fanout_due_check_passes hdate hfut), if_neg h3, if_neg h4]

theorem scheduleItemNotification_eq_no_channel {req : FanoutRequest}
    {now : Int} (pushId emailId smsId : Nat) (hu : req.userId ≠ "")
    (hi : req.itemId ≠ "") (hn : req.itemName ≠ "") {due : Int}
    (hdate : req.scheduledDate = some due) (hfut : now < due)
    (h3 : (fanoutPushRes now pushId req).isNone ∧
      (fanoutEmailRes now emailId req).isNone ∧
      (fanoutSmsRes now smsId req).isNone) :
    scheduleItemNotification now pushId emailId smsId req =
      { response := .error
          { code := "invalid-argument"
            message := "No valid notification preferences or contact details provided" }
        pushRecord := none
        emailRecord := none
        smsRecord := none } := by
  unfold scheduleItemNotification
  rw [if_neg (fanout_base_checks_pass hu hi hn hdate),
    if_neg (fanout_due_check_passes hdate hfut), if_pos h3]

/-- Claim C3: a `scheduleItemNotification` call with valid base fields and
a strictly future due instant creates, when at least one channel is both
preference-enabled and contactable, exactly one scheduled record per
eligible channel and none for any other channel, answering success; with
zero eligible channels it fails with an invalid-argument error and creates
no record in any channel collection. -/
theorem fanout_exactly_eligible_channels {req : FanoutRequest} {now : Int}
    (pushId emailId smsId : Nat) (hu : req.userId ≠ "") (hi : req.itemId ≠ "")
    (hn : req.itemName ≠ "") {due : Int} (hdate : req.scheduledDate = some due)
    (hfut : now < due) :
    ((eligPush req ∨ eligEmail req ∨ eligSms req) →
      (∃ ids, (scheduleItemNotification now pushId emailId smsId req).response =
        Except.ok ids) ∧
      ((scheduleItemNotification now pushId emailId smsId req).pushRecord.isSome ↔
        eligPush req) ∧
      ((scheduleItemNotification now pushId emailId smsId req).emailRecord.isSome ↔
        eligEmail req) ∧
      ((scheduleItemNotification now pushId emailId smsId req).smsRecord.isSome ↔
        eligSms req) ∧
      (∀ rec, (scheduleItemNotification now pushId emailId smsId req).pushRecord =
        some rec → rec.status = Status.scheduled ∧ rec.attempts = 0 ∧
          rec.id = pushId) ∧
      (∀ rec, (scheduleItemNotification now pushId emailId smsId req).emailRecord =
        some rec → rec.status = Status.scheduled ∧ rec.attempts = 0 ∧
          rec.id = emailId) ∧
      (∀ rec, (scheduleItemNotification now pushId emailId smsId req).smsRecord =
        some rec → rec.status = Status.scheduled ∧ rec.attempts = 0 ∧
          rec.id = smsId)) ∧
    ((¬ eligPush req ∧ ¬ eligEmail req ∧ ¬ eligSms req) →
      (scheduleItemNotification now pushId emailId smsId req).response =
        Except.error
          { code := "invalid-argument"
            message := "No valid notification preferences or contact details provided" } ∧
      (scheduleItemNotification now pushId emailId smsId req).pushRecord = none ∧
      (scheduleItemNotification now pushId emailId smsId req).emailRecord = none ∧
      (scheduleItemNotification now pushId emailId smsId req).smsRecord = none) := by
  constructor
  · intro helig
    have h3 : ¬ ((fanoutPushRes now pushId req).isNone ∧
        (fanoutEmailRes now emailId req).isNone ∧
        (fanoutSmsRes now smsId req).isNone) := by
      rcases helig with h | h | h
      · obtain ⟨r, hr, _⟩ := fanoutPushRes_of_elig now pushId h hu hi hn hdate hfut
        intro hcon
        rw [hr] at hcon
        exact Bool.noConfusion hcon.1
      · obtain ⟨r, hr, _⟩ := fanoutEmailRes_of_elig now emailId h hu hi hn hdate hfut
        intro hcon
        rw [hr] at hcon
        exact Bool.noConfusion hcon.2.1
      · obtain ⟨r, hr, _⟩ := fanoutSmsRes_of_elig now smsId h hu hi hn hdate hfut
        intro hcon
        rw [hr] at hcon
        exact Bool.noConfusion hcon.2.2
    rw [scheduleItemNotification_eq_ok pushId emailId smsId hu hi hn hdate hfut h3]
    refine ⟨⟨_, rfl⟩, ?_, ?_, ?_, ?_, ?_, ?_⟩
    · by_cases hp : eligPush req
      · obtain ⟨r, hr, _⟩ := fanoutPushRes_of_elig now pushId hp hu hi hn hdate hfut
        simp [hr, hp, Except.toOption]
      · simp [fanoutPushRes_of_not_elig now pushId hp, hp]
    · by_cases he : eligEmail req
      · obtain ⟨r, hr, _⟩ := fanoutEmailRes_of_elig now emailId he hu hi hn hdate hfut
        simp [hr, he, Except.toOption]
      · simp [fanoutEmailRes_of_not_elig now emailId he, he]
    · by_cases hs : eligSms req
      · obtain ⟨r, hr, _⟩ := fanoutSmsRes_of_elig now smsId hs hu hi hn hdate hfut
        simp [hr, hs, Except.toOption]
      · simp [fanoutSmsRes_of_not_elig now smsId hs, hs]
    · intro rec hrec
      by_cases hp : eligPush req
      · obtain ⟨r, hr, h1, h2, h3i⟩ :=
          fanoutPushRes_of_elig now pushId hp hu hi hn hdate hfut
        rw [hr] at hrec
        simp [Except.toOption] at hrec
        rw [← hrec]
        exact ⟨h1, h2, h3i⟩
      · rw [fanoutPushRes_of_not_elig now pushId hp] at hrec
        exact Option.noConfusion hrec
    · intro rec hrec
      by_cases he : eligEmail req
      · obtain ⟨r, hr, h1, h2, h3i⟩ :=
          fanoutEmailRes_of_elig now emailId he hu hi hn hdate hfut
        rw [hr] at hrec
        simp [Except.toOption] at hrec
        rw [← hrec]
        exact ⟨h1, h2, h3i⟩
      · rw [fanoutEmailRes_of_not_elig now emailId he] at hrec
        exact Option.noConfusion hrec
    · intro rec hrec
      by_cases hs : eligSms req
      · obtain ⟨r, hr, h1, h2, h3i⟩ :=
          fanoutSmsRes_of_elig now smsId hs hu hi hn hdate hfut
        rw [hr] at hrec
        simp [Except.toOption] at hrec
        rw [← hrec]
        exact ⟨h1, h2, h3i⟩
      · rw [fanoutSmsRes_of_not_elig now smsId hs] at hrec
        exact Option.noConfusion hrec
  · intro ⟨hp, he, hs⟩
    have h3 : (fanoutPushRes now pushId req).isNone ∧
        (fanoutEmailRes now emailId req).isNone ∧
        (fanoutSmsRes now smsId req).isNone := by
      rw [fanoutPushRes_of_not_elig now pushId hp,
        fanoutEmailRes_of_not_elig now emailId he,
        fanoutSmsRes_of_not_elig now smsId hs]
      exact ⟨rfl, rfl, rfl⟩
    rw [scheduleItemNotification_eq_no_channel pushId emailId smsId hu hi hn
      hdate hfut h3]
    exact ⟨rfl, rfl, rfl, rfl⟩

/-- Concrete fan-out request shared by the fan-out witness: push and email
enabled and contactable, SMS preference enabled but no phone number. -/
def sampleFanoutRequest : FanoutRequest :=
  { userId := "user-1"
    itemId := "item-1"
    itemName := "Laptop"
    category := "hardware"
    notificationType := "warranty_expiration"
    scheduledDate := some 100
    userPreferences := some { email := true, sms := true, push := true }
    userContact := some
      { fcmTokens := ["tokenA"]
        email := "user@example.com"
        phone := "" }
    reminderDaysBefore := 7 }

theorem fanout_exactly_eligible_channels_witness :
    sampleFanoutRequest.userId ≠ "" ∧
    sampleFanoutRequest.scheduledDate = some 100 ∧
    (0 : Int) < 100 ∧
    eligPush sampleFanoutRequest ∧
    ¬ eligSms sampleFanoutRequest ∧
    (((eligPush sampleFanoutRequest ∨ eligEmail sampleFanoutRequest ∨
        eligSms sampleFanoutRequest) →
      (∃ ids, (scheduleItemNotification 0 11 12 13 sampleFanoutRequest).response =
        Except.ok ids) ∧
      ((scheduleItemNotification 0 11 12 13 sampleFanoutRequest).pushRecord.isSome ↔
        eligPush sampleFanoutRequest) ∧
      ((scheduleItemNotification 0 11 12 13 sampleFanoutRequest).emailRecord.isSome ↔
        eligEmail sampleFanoutRequest) ∧
      ((scheduleItemNotification 0 11 12 13 sampleFanoutRequest).smsRecord.isSome ↔
        eligSms sampleFanoutRequest) ∧
      (∀ rec, (scheduleItemNotification 0 11 12 13 sampleFanoutRequest).pushRecord =
        some rec → rec.status = Status.scheduled ∧ rec.attempts = 0 ∧
          rec.id = 11) ∧
      (∀ rec, (scheduleItemNotification 0 11 12 13 sampleFanoutRequest).emailRecord =
        some rec → rec.status = Status.scheduled ∧ rec.attempts = 0 ∧
          rec.id = 12) ∧
      (∀ rec, (scheduleItemNotification 0 11 12 13 sampleFanoutRequest).smsRecord =
        some rec → rec.status = Status.scheduled ∧ rec.attempts = 0 ∧
          rec.id = 13)) ∧
    ((¬ eligPush sampleFanoutRequest ∧ ¬ eligEmail sampleFanoutRequest ∧
        ¬ eligSms sampleFanoutRequest) →
      (scheduleItemNotification 0 11 12 13 sampleFanoutRequest).response =
        Except.error
          { code := "invalid-argument"
            message := "No valid notification preferences or contact details provided" } ∧
      (scheduleItemNotification 0 11 12 13 sampleFanoutRequest).pushRecord = none ∧
      (scheduleItemNotification 0 11 12 13 sampleFanoutRequest).emailRecord = none ∧
      (scheduleItemNotification 0 11 12 13 sampleFanoutRequest).smsRecord = none)) :=
  ⟨by decide, rfl, by decide, by decide, by decide,
    fanout_exactly_eligible_channels 11 12 13 (by decide) (by decide) (by decide)
      rfl (by decide)⟩

/-- Claim C10: when `userPreferences` is omitted the fan-out defaults to
email only — push and SMS records are never created regardless of the
contacts supplied, and when the base fields are valid, the due instant is
future and an email contact is present, exactly an email record is created
with status scheduled and the call answers success. -/
theorem default_preferences_email_only {req : FanoutRequest} {now : Int}
    (pushId emailId smsId : Nat) (hpref : req.userPreferences = none) :
    (scheduleItemNotification now pushId emailId smsId req).pushRecord = none ∧
    (scheduleItemNotification now pushId emailId smsId req).smsRecord = none ∧
    (req.userId ≠ "" → req.itemId ≠ "" → req.itemName ≠ "" →
      ∀ due : Int, req.scheduledDate = some due → now < due →
      (effectiveContact req).email ≠ "" →
      ∃ rec, (scheduleItemNotification now pushId emailId smsId req).emailRecord =
          some rec ∧ rec.status = Status.scheduled ∧
        ∃ ids, (scheduleItemNotification now pushId emailId smsId req).response =
          Except.ok ids) := by
  have hdefault : effectivePreferences req =
      { email := true, sms := false, push := false } := by
    unfold effectivePreferences
    rw [hpref]
    rfl
  have hp : ¬ eligPush req := by
    intro h
    have := h.1
    rw [hdefault] at this
    exact Bool.noConfusion this
  have hs : ¬ eligSms req := by
    intro h
    have := h.1
    rw [hdefault] at this
    exact Bool.noConfusion this
  have hpr := fanoutPushRes_of_not_elig now pushId hp
  have hsr := fanoutSmsRes_of_not_elig now smsId hs
  refine ⟨?_, ?_, ?_⟩
  · unfold scheduleItemNotification
    split
    · rfl
    · split
      · rfl
      · split
        · rfl
        · split
          · show ((fanoutPushRes now pushId req).bind Except.toOption) = none
            rw [hpr]
            rfl
          · show ((fanoutPushRes now pushId req).bind Except.toOption) = none
            rw [hpr]
            rfl
  · unfold scheduleItemNotification
    split
    · rfl
    · split
      · rfl
      · split
        · rfl
        · split
          · show ((fanoutSmsRes now smsId req).bind Except.toOption) = none
            rw [hsr]
            rfl
          · show ((fanoutSmsRes now smsId req).bind Except.toOption) = none
            rw [hsr]
            rfl
  · intro hu hi hn due hdate hfut hmail
    have he : eligEmail req := by
      refine ⟨?_, hmail⟩
      rw [hdefault]
    obtain ⟨r, hr, h1, h2, h3i⟩ :=
      fanoutEmailRes_of_elig now emailId he hu hi hn hdate hfut
    have h3 : ¬ ((fanoutPushRes now pushId req).isNone ∧
        (fanoutEmailRes now emailId req).isNone ∧
        (fanoutSmsRes now smsId req).isNone) := by
      intro hcon
      rw [hr] at hcon
      exact Bool.noConfusion hcon.2.1
    rw [scheduleItemNotification_eq_ok pushId emailId smsId hu hi hn hdate hfut h3]
    refine ⟨r, ?_, h1, ⟨_, rfl⟩⟩
    show ((fanoutEmailRes now emailId req).bind Except.toOption) = some r
    rw [hr]
    rfl

/-- Concrete fan-out request with omitted preferences but full contact
details, shared by the default-preferences witness. -/
def sampleDefaultPrefRequest : FanoutRequest :=
  { sampleFanoutRequest with
    userPreferences := none
    userContact := some
      { fcmTokens := ["tokenA"]
        email := "user@example.com"
        phone := "+15551234567" } }

theorem default_preferences_email_only_witness :
    sampleDefaultPrefRequest.userPreferences = none ∧
    ((scheduleItemNotification 0 11 12 13 sampleDefaultPrefRequest).pushRecord =
      none ∧
    (scheduleItemNotification 0 11 12 13 sampleDefaultPrefRequest).smsRecord =
      none ∧
    (sampleDefaultPrefRequest.userId ≠ "" → sampleDefaultPrefRequest.itemId ≠ "" →
      sampleDefaultPrefRequest.itemName ≠ "" →
      ∀ due : Int, sampleDefaultPrefRequest.scheduledDate = some due → 0 < due →
      (effectiveContact sampleDefaultPrefRequest).email ≠ "" →
      ∃ rec, (scheduleItemNotification 0 11 12 13
          sampleDefaultPrefRequest).emailRecord = some rec ∧
        rec.status = Status.scheduled ∧
        ∃ ids, (scheduleItemNotification 0 11 12 13
          sampleDefaultPrefRequest).response = Except.ok ids)) :=
  ⟨rfl, default_preferences_email_only 11 12 13 rfl⟩

end VaultNotifications
